import Mathlib

/-!
# Verification of the DQAgent data-quality assistant

Shallow embedding of the core routines of `mcpandstreamlit.py`:

* `extract_issues_from_txt` — the issue parser.  Text is modelled as
  `List Char`; the Python string operations used by the parser
  (`re.split` with a lookahead pattern, substring containment,
  `re.search` for the header line, `str.split` on a substring,
  `str.splitlines`, `str.strip`, `str.startswith`) are each given an
  executable model below, faithful to CPython semantics for the inputs
  this program handles (newlines are `\n`).  The file read and the
  outer `try/except` wrapper are modelled away: the parser is a pure
  function of the file content it reads.

* `compute_dynamic_metrics` — the per-column metrics pass.  A
  dataframe is a row count plus a list of named columns; a column is
  either numeric (cells `Option Rat`, `none` = missing) or object/text
  (cells `Option String`).  Python `int / int` division raises
  `ZeroDivisionError` on a zero denominator, while numpy scalar
  division and `Series.mean()` silently give `nan`; both behaviours
  are modelled (`pyDivQ` versus `npDivNat`/`npMean`).  The wall clock
  (`snapshot_time`) is passed in explicitly.

* `analyze_csv_files` — the per-batch analysis driver.  The HTTP
  backend is external nondeterminism, passed in as explicit inputs
  (one result for the cross-file call, one per file); the text written
  to `analysis_output.txt` is returned as a list of appended chunks.
  The prompt strings sent to the backend do not influence any output
  modelled here and are elided.
-/

/-- Text is modelled as a list of characters. -/
abbrev Str := List Char

/-- The whitespace characters trimmed by Python `str.strip()` (ASCII range). -/
def isPySpace (c : Char) : Bool :=
  c == ' ' || c == '\t' || c == '\n' || c == '\r' || c == '\x0b' || c == '\x0c'

/-- Python `str.strip()`: drop whitespace from both ends. -/
def pyStrip (s : Str) : Str :=
  ((s.dropWhile isPySpace).reverse.dropWhile isPySpace).reverse

/-- Python `str.startswith(pat)` on character lists. -/
def lpre : Str → Str → Bool
  | [], _ => true
  | _ :: _, [] => false
  | p :: ps, c :: cs => p == c && lpre ps cs

/-- Python `pat in s` (substring containment). -/
def containsSub (pat : Str) : Str → Bool
  | [] => lpre pat []
  | c :: rest => lpre pat (c :: rest) || containsSub pat rest

/-- Worker for `splitOnSub`: scan left to right, cutting at each
leftmost non-overlapping occurrence of `pat`.  `acc` holds the current
segment reversed; after a cut the remaining `pat.length - 1` matched
characters are consumed one at a time through the skip counter, so the
recursion is structural. -/
def splitOnSubAux (pat : Str) : Str → Str → ℕ → List Str
  | [], acc, _ => [acc.reverse]
  | _ :: rest, acc, k + 1 => splitOnSubAux pat rest acc k
  | c :: rest, acc, 0 =>
    if lpre pat (c :: rest) then
      acc.reverse :: splitOnSubAux pat rest [] (pat.length - 1)
    else
      splitOnSubAux pat rest (c :: acc) 0

/-- Python `s.split(pat)` for a non-empty literal separator. -/
def splitOnSub (pat s : Str) : List Str := splitOnSubAux pat s [] 0

/-- The two header literals of the lookahead split pattern
`(?=Analysis for file:|Analysis for table:)`. -/
def hdrFile : Str := "Analysis for file:".toList

/-- See `hdrFile`. -/
def hdrTable : Str := "Analysis for table:".toList

/-- Does a header literal match at this position? -/
def headerAt (s : Str) : Bool := lpre hdrFile s || lpre hdrTable s

/-- Worker for `splitLookahead`: a cut happens at every position where
`headerAt` holds (zero-width matches, as CPython `re.split` produces
on a pure lookahead pattern). -/
def splitLAAux : Str → Str → List Str
  | [], acc => [acc.reverse]
  | c :: rest, acc =>
    if headerAt (c :: rest) then
      acc.reverse :: splitLAAux rest [c]
    else
      splitLAAux rest (c :: acc)

/-- `re.split(r"(?=Analysis for file:|Analysis for table:)", content)`. -/
def splitLookahead (s : Str) : List Str := splitLAAux s []

/-- Worker for `pySplitlines` (newline model: `\n`). -/
def splitlinesAux : Str → Str → List Str
  | [], acc => [acc.reverse]
  | c :: rest, acc =>
    if c = '\n' then
      if rest = [] then [acc.reverse] else acc.reverse :: splitlinesAux rest []
    else
      splitlinesAux rest (c :: acc)

/-- Python `str.splitlines()` for `\n`-separated text: no trailing
empty line, and the empty string has no lines. -/
def pySplitlines (s : Str) : List Str :=
  if s = [] then [] else splitlinesAux s []

/-- Python `lst[1]` under a guard that guarantees the index exists
(the parser indexes `split(...)[1]` only after a `startswith` check). -/
def idx1 (l : List Str) : Str := ((l.drop 1).head?).getD []

/-- The header literal of the filename regex `Analysis for (file|table): (.*)`,
`file` branch (note the mandatory space after the colon). -/
def hdrFileSp : Str := "Analysis for file: ".toList

/-- See `hdrFileSp`: `table` branch. -/
def hdrTableSp : Str := "Analysis for table: ".toList

/-- `re.search(r"Analysis for (file|table): (.*)", section)`: the raw
second capture group of the first match, scanning left to right;
`(.*)` runs to the end of the line. -/
def findHeaderName : Str → Option Str
  | [] => none
  | c :: rest =>
    if lpre hdrFileSp (c :: rest) then
      some (((c :: rest).drop hdrFileSp.length).takeWhile (fun ch => ch != '\n'))
    else if lpre hdrTableSp (c :: rest) then
      some (((c :: rest).drop hdrTableSp.length).takeWhile (fun ch => ch != '\n'))
    else
      findHeaderName rest

/-- The issue dictionary built by `extract_issues_from_txt`.  Every key
the code can ever set is an explicit optional field; `file` is set at
creation time. -/
structure Issue where
  file : Option Str
  title : Option Str
  details : Option Str
  expected : Option Str
  constraint : Option Str
  location : Option Str
deriving Repr, DecidableEq

/-- `issue = {"file": filename}`. -/
def initIssue (filename : Str) : Issue :=
  { file := some filename, title := none, details := none,
    expected := none, constraint := none, location := none }

/-- `line.startswith("- **Issue:**")`. -/
def titleStart : Str := "- **Issue:**".toList
/-- `line.split("**Issue:**")`. -/
def titleSplit : Str := "**Issue:**".toList
/-- `line.startswith("- Details:")`. -/
def detailsStart : Str := "- Details:".toList
/-- `line.split("Details:")`. -/
def detailsSplit : Str := "Details:".toList
/-- `line.startswith("- Expected correct state:")`. -/
def expectedStart : Str := "- Expected correct state:".toList
/-- `line.split("Expected correct state:")`. -/
def expectedSplit : Str := "Expected correct state:".toList
/-- `line.startswith("- Violated constraint:")`. -/
def constraintStart : Str := "- Violated constraint:".toList
/-- `line.split("Violated constraint:")`. -/
def constraintSplit : Str := "Violated constraint:".toList
/-- `line.startswith("- Location:")`. -/
def locationStart : Str := "- Location:".toList
/-- `line.split("Location:")`. -/
def locationSplit : Str := "Location:".toList

/-- The `if/elif` chain over one line of a sub-block. -/
def processLine (iss : Issue) (line : Str) : Issue :=
  if lpre titleStart line then
    { iss with title := some (pyStrip (idx1 (splitOnSub titleSplit line))) }
  else if lpre detailsStart line then
    { iss with details := some (pyStrip (idx1 (splitOnSub detailsSplit line))) }
  else if lpre expectedStart line then
    { iss with expected := some (pyStrip (idx1 (splitOnSub expectedSplit line))) }
  else if lpre constraintStart line then
    { iss with constraint := some (pyStrip (idx1 (splitOnSub constraintSplit line))) }
  else if lpre locationStart line then
    { iss with location := some (pyStrip (idx1 (splitOnSub locationSplit line))) }
  else
    iss

/-- One `---`-delimited sub-block: strip it, skip it when empty,
otherwise scan its lines and keep the record only when a title was
recognized. -/
def processBlock (filename : Str) (block : Str) : Option Issue :=
  let b := pyStrip block
  if b = [] then none
  else
    let iss := (pySplitlines b).foldl processLine (initIssue filename)
    if iss.title.isSome then some iss else none

/-- The `"---"` sub-block separator. -/
def dashSep : Str := "---".toList

/-- `extract_issues_from_txt`, as a pure function of the file content.
Sections not containing a header literal are skipped; the owning name
is the first regex match (or `"Unknown"` when the regex finds none). -/
def extract_issues_from_txt (content : Str) : List Issue :=
  (splitLookahead content).flatMap fun sect =>
    if containsSub hdrFile sect || containsSub hdrTable sect then
      let filename :=
        match findHeaderName sect with
        | some g => pyStrip g
        | none => "Unknown".toList
      (splitOnSub dashSep sect).filterMap (processBlock filename)
    else
      []

/-! ## Metrics engine: `compute_dynamic_metrics` -/

/-- The errors the metrics pass can produce.  `zeroDivision` models
Python `ZeroDivisionError` (raised by `int / 0`).  `emptyTable` models
the `EmptyTableError` named by the specification; no code path below
ever produces it, it exists so the specified behaviour is statable. -/
inductive PyError where
  | zeroDivision
  | emptyTable
deriving Repr, DecidableEq

/-- A numpy floating scalar as far as this program observes it:
a finite rational, or the silent `nan`/`inf` that numpy division and
`mean` produce on empty denominators (with no exception raised). -/
inductive NpVal where
  | nan
  | inf
  | val (q : ℚ)
deriving Repr, DecidableEq

/-- numpy scalar division `np.int64(a) / b`: never raises; `0/0` is
`nan` and `a/0` is `inf` for positive `a`. -/
def npDivNat (a b : ℕ) : NpVal :=
  if b = 0 then (if a = 0 then .nan else .inf) else .val ((a : ℚ) / (b : ℚ))

/-- `Series.mean()` over a boolean series: `nan` when the series is
empty, otherwise the share of `True`. -/
def npMean (num den : ℕ) : NpVal :=
  if den = 0 then .nan else .val ((num : ℚ) / (den : ℚ))

/-- `x * 100` on a numpy scalar. -/
def npMul100 : NpVal → NpVal
  | .nan => .nan
  | .inf => .inf
  | .val q => .val (q * 100)

/-- Python `int / int` true division: raises `ZeroDivisionError` on a
zero denominator. -/
def pyDivQ (a b : ℕ) : Except PyError ℚ :=
  if b = 0 then .error .zeroDivision else .ok ((a : ℚ) / (b : ℚ))

/-- Python `str.strip()` on a `String`. -/
def pyStripS (s : String) : String := String.mk (pyStrip s.data)

/-- Worker for `pyIstitle`: tracks whether the previous character was
cased and whether any cased character was seen. -/
def istitleAux : Str → Bool → Bool → Bool
  | [], _, found => found
  | c :: rest, prevCased, found =>
    if c.isUpper then
      if prevCased then false else istitleAux rest true true
    else if c.isLower then
      if prevCased then istitleAux rest true true else false
    else
      istitleAux rest false found

/-- Python `str.istitle()` (ASCII case model): uppercase letters only
at word starts, lowercase letters only inside words, at least one
cased character. -/
def pyIstitle (s : String) : Bool := istitleAux s.data false false

/-- `re.search(r"[^@]+@[^@]+\.[^@]+", s)` is some: an `@` preceded by
a non-`@` character, followed by a non-`@` run of length at least one,
a dot, and one more non-`@` character. -/
def emailMatch (s : Str) : Bool :=
  (List.range s.length).any fun i =>
    s.get? i == some '@' && decide (1 ≤ i) &&
    ((s.get? (i - 1)).getD '@') != '@' &&
    ((List.range s.length).any fun d =>
      decide (i + 2 ≤ d) && s.get? d == some '.' &&
      (((s.drop (i + 1)).take (d - (i + 1))).all fun ch => ch != '@') &&
      ((s.get? (d + 1)).getD '@') != '@')

/-- `re.search(r"^\+?[0-9]{10,15}$", s)` is some: an optional leading
`+` followed by 10 to 15 digits spanning the whole string (`$` also
accepts a position just before one final newline). -/
def phoneMatch (s : Str) : Bool :=
  let s1 := if s.getLast? = some '\n' then s.dropLast else s
  let t := if s1.head? = some '+' then s1.tail else s1
  t.all (fun c => c.isDigit) && decide (10 ≤ t.length) && decide (t.length ≤ 15)

/-- A column's cells.  `object` dtype columns hold optional strings
(`none` = missing), numeric dtype columns hold optional rationals. -/
inductive ColData where
  | text (vals : List (Option String))
  | numeric (vals : List (Option ℚ))
deriving Repr, DecidableEq

/-- A named column. -/
structure Column where
  name : String
  data : ColData
deriving Repr, DecidableEq

/-- A loaded table: `len(df)` plus its columns in order. -/
structure DataFrame where
  nrows : ℕ
  cols : List Column
deriving Repr, DecidableEq

/-- `col_data.notna().sum()`. -/
def notnaCount : ColData → ℕ
  | .text vals => vals.countP (fun o => o.isSome)
  | .numeric vals => vals.countP (fun o => o.isSome)

/-- `col_data.nunique()`: distinct non-missing values. -/
def nuniqueCount : ColData → ℕ
  | .text vals => (vals.filterMap id).dedup.length
  | .numeric vals => (vals.filterMap id).dedup.length

/-- One row of the metrics list: the dictionary built per column, with
the branch-dependent keys as explicit optional fields. -/
structure MetricEntry where
  table : String
  column : String
  snapshot_time : String
  kind : String
  completeness_pct : NpVal
  uniqueness_pct : ℚ
  empty_string_pct : Option NpVal := none
  whitespace_issues_pct : Option NpVal := none
  capitalized_pct : Option NpVal := none
  regex_email_valid_pct : Option NpVal := none
  regex_phone_valid_pct : Option NpVal := none
  zero_values_pct : Option NpVal := none
  negative_values_pct : Option NpVal := none
deriving Repr, DecidableEq

/-- The body of the per-column loop of `compute_dynamic_metrics`.
`completeness_pct` divides with numpy semantics (`nan` on an empty
table); `uniqueness_pct` divides a Python `int` by `total_rows` and
raises `ZeroDivisionError` when the table has no rows. -/
def entryFor (table_name now : String) (total : ℕ) (c : Column) :
    Except PyError MetricEntry :=
  let completeness := npMul100 (npDivNat (notnaCount c.data) total)
  match pyDivQ (nuniqueCount c.data) total with
  | .error e => .error e
  | .ok uniqRatio =>
    let base : MetricEntry :=
      { table := table_name, column := c.name, snapshot_time := now,
        kind := "metric", completeness_pct := completeness,
        uniqueness_pct := uniqRatio * 100 }
    match c.data with
    | .text vals =>
      let nonNull := vals.filterMap id
      let e1 := { base with
        empty_string_pct :=
          some (npMul100 (npDivNat (vals.countP (fun o => o == some "")) total)),
        whitespace_issues_pct :=
          some (npMul100 (npMean (nonNull.countP (fun s => s != pyStripS s)) nonNull.length)),
        capitalized_pct :=
          some (npMul100 (npMean (nonNull.countP pyIstitle) nonNull.length)) }
      let emailPct :=
        npMul100 (npMean
          (vals.countP (fun o => (o.map (fun s => emailMatch s.data)).getD false))
          vals.length)
      let phonePct :=
        npMul100 (npMean
          (vals.countP (fun o => (o.map (fun s => phoneMatch s.data)).getD false))
          vals.length)
      let e2 :=
        if containsSub "email".toList c.name.toLower.data then
          { e1 with regex_email_valid_pct := some emailPct }
        else e1
      let e3 :=
        if containsSub "phone".toList c.name.toLower.data then
          { e2 with regex_phone_valid_pct := some phonePct }
        else e2
      .ok e3
    | .numeric vals =>
      .ok { base with
        zero_values_pct :=
          some (npMul100 (npDivNat (vals.countP (fun o => o == some (0 : ℚ))) total)),
        negative_values_pct :=
          some (npMul100 (npDivNat
            (vals.countP (fun o => (o.map (fun q => decide (q < 0))).getD false)) total)) }

/-- The column loop: entries in column order; an exception aborts the
whole call. -/
def computeAux (table_name now : String) (total : ℕ) :
    List Column → Except PyError (List MetricEntry)
  | [] => .ok []
  | c :: cs =>
    match entryFor table_name now total c with
    | .error e => .error e
    | .ok m =>
      match computeAux table_name now total cs with
      | .error e => .error e
      | .ok ms => .ok (m :: ms)

/-- `compute_dynamic_metrics(df, table_name)`, with the snapshot clock
passed explicitly. -/
def compute_dynamic_metrics (df : DataFrame) (table_name now : String) :
    Except PyError (List MetricEntry) :=
  computeAux table_name now df.nrows df.cols

/-! ## Batch driver: `analyze_csv_files` -/

/-- The observable outcome of one `requests.post` to the completion
backend: a usable reply, a JSON envelope without `choices[0]`, or a
raised exception. -/
inductive BackendResult where
  | ok (content : String)
  | badEnvelope (raw : String)
  | exn (msg : String)
deriving Repr, DecidableEq

/-- The `"=" * 80` visual separator. -/
def eq80 : String := String.mk (List.replicate 80 '=')

/-- The chunk written for the cross-file analysis. -/
def crossSection (reply : String) : String :=
  "Cross-file Analysis:\n" ++ reply ++ "\n" ++ eq80 ++ "\n"

/-- The chunk appended for one per-file analysis (note: the full path,
not the basename, goes into the header line). -/
def fileSection (path reply : String) : String :=
  "Analysis for file: " ++ path ++ "\n" ++ reply ++ "\n" ++ eq80 ++ "\n"

/-- `os.path.basename` (POSIX): the part after the last slash. -/
def pyBasename (s : String) : String :=
  String.mk ((s.data.reverse.takeWhile (fun c => c != '/')).reverse)

/-- The per-file loop of `analyze_csv_files`: metrics are extended
before the backend call, so a failed call (`continue`) only drops that
file's output section.  `backend i` is the result of the `i`-th
per-file call. -/
def analyzeFilesLoop (now : String) (backend : ℕ → BackendResult) :
    ℕ → List (String × DataFrame) → Except PyError (List MetricEntry × List String)
  | _, [] => .ok ([], [])
  | i, (path, df) :: fs =>
    match compute_dynamic_metrics df (pyBasename path) now with
    | .error e => .error e
    | .ok ms =>
      match analyzeFilesLoop now backend (i + 1) fs with
      | .error e => .error e
      | .ok (restM, restS) =>
        match backend i with
        | .ok reply => .ok (ms ++ restM, fileSection path reply :: restS)
        | _ => .ok (ms ++ restM, restS)

/-- `analyze_csv_files(file_paths)`.  The cross-file call happens
first; on any failure the function returns an empty metrics list at
once and writes nothing.  On success the output file is truncated and
rebuilt from the returned chunks, cross-file section first. -/
def analyze_csv_files (files : List (String × DataFrame)) (now : String)
    (crossRes : BackendResult) (backend : ℕ → BackendResult) :
    Except PyError (List MetricEntry × List String) :=
  match crossRes with
  | .ok reply =>
    match analyzeFilesLoop now backend 0 files with
    | .error e => .error e
    | .ok (ms, secs) => .ok (ms, crossSection reply :: secs)
  | _ => .ok ([], [])

/-- The output sections one expects from a run whose cross-file call
succeeded: exactly the files whose backend call succeeded, in order. -/
def expectedSections (backend : ℕ → BackendResult) :
    ℕ → List (String × DataFrame) → List String
  | _, [] => []
  | i, (path, _) :: fs =>
    match backend i with
    | .ok reply => fileSection path reply :: expectedSections backend (i + 1) fs
    | _ => expectedSections backend (i + 1) fs

/-! ## Lemmas about the string primitives -/

/-- A match of `p` survives extending the scanned text on the right. -/
theorem lpre_append_left {p s : Str} (h : lpre p s = true) (t : Str) :
    lpre p (s ++ t) = true := by
  induction p generalizing s with
  | nil => rfl
  | cons p0 ps ih =>
    cases s with
    | nil => simp [lpre] at h
    | cons c cs =>
      simp only [lpre, Bool.and_eq_true, beq_iff_eq] at h
      simp [lpre, h.1, ih h.2]

/-- Every list starts with itself. -/
theorem lpre_refl (p : Str) : lpre p p = true := by
  induction p with
  | nil => rfl
  | cons p0 ps ih => simp [lpre, ih]

/-- `p` is a prefix of `p ++ t`. -/
theorem lpre_self_append (p t : Str) : lpre p (p ++ t) = true :=
  lpre_append_left (lpre_refl p) t

/-- If the fixed windows of `p` and `s` disagree, then `p` is not a
prefix of `s ++ v` for any continuation `v`. -/
theorem lpre_window_false {p s : Str}
    (h : p.take s.length ≠ s.take p.length) (v : Str) :
    lpre p (s ++ v) = false := by
  induction p generalizing s with
  | nil => simp at h
  | cons p0 ps ih =>
    cases s with
    | nil => simp at h
    | cons c cs =>
      by_cases hc : p0 = c
      · subst hc
        have hne : ps.take cs.length ≠ cs.take ps.length := by
          intro he; exact h (by simp [List.take, he])
        simp [lpre, ih hne]
      · simp [lpre, hc]

/-- Head disagreement refutes a prefix match. -/
theorem lpre_cons_ne {p0 c : Char} (pt rest : Str) (h : p0 ≠ c) :
    lpre (p0 :: pt) (c :: rest) = false := by
  simp [lpre, h]

/-- Substring containment, spelled as positions. -/
theorem containsSub_eq_false_iff (pat s : Str) :
    containsSub pat s = false ↔ ∀ i ≤ s.length, lpre pat (s.drop i) = false := by
  induction s with
  | nil =>
    simp only [containsSub, List.length_nil, Nat.le_zero]
    constructor
    · intro h i hi; subst hi; simpa using h
    · intro h; simpa using h 0 rfl
  | cons c cs ih =>
    simp only [containsSub, Bool.or_eq_false_iff, ih]
    constructor
    · rintro ⟨h0, h1⟩ i hi
      cases i with
      | zero => simpa using h0
      | succ j => exact h1 j (by simpa using hi)
    · intro h
      exact ⟨h 0 (by simp), fun j hj => h (j + 1) (by simpa using hj)⟩

/-- The skip counter consumes exactly the matched separator remainder. -/
theorem splitOnSubAux_skip (pat : Str) (x : Str) :
    ∀ (s acc : Str), splitOnSubAux pat (x ++ s) acc x.length = splitOnSubAux pat s acc 0 := by
  induction x with
  | nil => intro s acc; rfl
  | cons c x' ih =>
    intro s acc
    rw [List.cons_append]
    exact ih s acc

/-- Scanning over match-free text only moves it into the accumulator. -/
theorem splitOnSubAux_walk (pat : Str) (a : Str) :
    ∀ (s acc : Str), (∀ i < a.length, lpre pat ((a ++ s).drop i) = false) →
      splitOnSubAux pat (a ++ s) acc 0 = splitOnSubAux pat s (a.reverse ++ acc) 0 := by
  induction a with
  | nil => intro s acc _; simp
  | cons c a' ih =>
    intro s acc h
    have h0 : lpre pat (c :: (a' ++ s)) = false := by simpa using h 0 (by simp)
    have e : splitOnSubAux pat (c :: (a' ++ s)) acc 0 =
        if lpre pat (c :: (a' ++ s)) then
          acc.reverse :: splitOnSubAux pat (a' ++ s) [] (pat.length - 1)
        else splitOnSubAux pat (a' ++ s) (c :: acc) 0 := rfl
    rw [List.cons_append, e, if_neg (by simp [h0])]
    rw [ih s (c :: acc) (fun i hi => by simpa using h (i + 1) (by simpa using hi))]
    simp

/-- Hitting the separator cuts the accumulated segment. -/
theorem splitOnSubAux_match (pat s acc : Str) (hp : pat ≠ []) :
    splitOnSubAux pat (pat ++ s) acc 0 = acc.reverse :: splitOnSubAux pat s [] 0 := by
  cases pat with
  | nil => exact absurd rfl hp
  | cons p0 pt =>
    have e : splitOnSubAux (p0 :: pt) ((p0 :: pt) ++ s) acc 0 =
        if lpre (p0 :: pt) (p0 :: (pt ++ s)) then
          acc.reverse :: splitOnSubAux (p0 :: pt) (pt ++ s) [] ((p0 :: pt).length - 1)
        else splitOnSubAux (p0 :: pt) (pt ++ s) (p0 :: acc) 0 := rfl
    rw [e, if_pos (by simpa using lpre_self_append (p0 :: pt) s)]
    congr 1
    exact splitOnSubAux_skip (p0 :: pt) pt s []

/-- The lookahead scan also just walks over marker-free text. -/
theorem splitLAAux_walk (a : Str) :
    ∀ (s acc : Str), (∀ i < a.length, headerAt ((a ++ s).drop i) = false) →
      splitLAAux (a ++ s) acc = splitLAAux s (a.reverse ++ acc) := by
  induction a with
  | nil => intro s acc _; simp
  | cons c a' ih =>
    intro s acc h
    have h0 : headerAt (c :: (a' ++ s)) = false := by simpa using h 0 (by simp)
    rw [List.cons_append, splitLAAux, if_neg (by simp [h0])]
    rw [ih s (c :: acc) (fun i hi => by simpa using h (i + 1) (by simpa using hi))]
    simp

/-- Stripping a leading blank. -/
theorem pyStrip_cons_space (v : Str) : pyStrip (' ' :: v) = pyStrip v := by
  simp [pyStrip, List.dropWhile_cons, isPySpace]

/-- `processLine` never touches the `file` key. -/
theorem processLine_file (iss : Issue) (l : Str) :
    (processLine iss l).file = iss.file := by
  unfold processLine
  repeat' split
  all_goals rfl

/-- Nor does a whole line scan. -/
theorem foldl_processLine_file (lines : List Str) (iss : Issue) :
    (lines.foldl processLine iss).file = iss.file := by
  induction lines generalizing iss with
  | nil => rfl
  | cons l ls ih => rw [List.foldl_cons, ih, processLine_file]

/-- A line that does not start with the emphasized title marker leaves
the `title` key alone. -/
theorem processLine_title_of_not {l : Str} (iss : Issue)
    (h : lpre titleStart l = false) :
    (processLine iss l).title = iss.title := by
  unfold processLine
  rw [if_neg (by simp [h])]
  repeat' split
  all_goals rfl

/-- A scan of title-free lines leaves the `title` key alone. -/
theorem foldl_processLine_title (lines : List Str) (iss : Issue)
    (h : ∀ l ∈ lines, lpre titleStart l = false) :
    (lines.foldl processLine iss).title = iss.title := by
  induction lines generalizing iss with
  | nil => rfl
  | cons l ls ih =>
    rw [List.foldl_cons, ih _ (fun x hx => h x (by simp [hx])),
      processLine_title_of_not iss (h l (by simp))]

/-- A separator-free string is returned whole. -/
theorem splitOnSub_no_occ (pat s : Str)
    (h : ∀ i ≤ s.length, lpre pat (s.drop i) = false) :
    splitOnSub pat s = [s] := by
  have hw := splitOnSubAux_walk pat s [] []
    (fun i hi => by simpa using h i (Nat.le_of_lt hi))
  simp only [List.append_nil] at hw
  rw [splitOnSub, hw,
    show splitOnSubAux pat [] s.reverse 0 = [s.reverse.reverse] from rfl]
  simp

/-- Splitting a field line whose value holds no further marker: the
text decomposes as `"- "`, the marker, then the raw value. -/
theorem splitOnSub_marker_once {m : Str} {m0 : Char} {mt : Str}
    (hm : m = m0 :: mt) (h0 : m0 ≠ '-') (h1 : m0 ≠ ' ') (rem : Str)
    (hrem : ∀ i ≤ rem.length, lpre m (rem.drop i) = false) :
    splitOnSub m ('-' :: ' ' :: (m ++ rem)) = [['-', ' '], rem] := by
  have hwalk := splitOnSubAux_walk m ['-', ' '] (m ++ rem) []
    (by
      intro i hi
      simp only [List.length_cons, List.length_nil] at hi
      interval_cases i
      · rw [hm]; exact lpre_cons_ne mt _ h0
      · rw [hm]; exact lpre_cons_ne mt _ h1)
  have hmatch := splitOnSubAux_match m rem [' ', '-'] (by simp [hm])
  have hrest := splitOnSub_no_occ m rem hrem
  calc splitOnSub m ('-' :: ' ' :: (m ++ rem))
      = splitOnSubAux m (['-', ' '] ++ (m ++ rem)) [] 0 := rfl
    _ = splitOnSubAux m (m ++ rem) [' ', '-'] 0 := by rw [hwalk]; rfl
    _ = ['-', ' '] :: splitOnSubAux m rem [] 0 := by rw [hmatch]; rfl
    _ = [['-', ' '], rem] := by
        rw [show splitOnSubAux m rem [] 0 = splitOnSub m rem from rfl, hrest]

/-- Splitting a field line whose value holds one further occurrence of
the marker: the captured middle segment stops at that occurrence. -/
theorem splitOnSub_marker_twice {m : Str} {m0 : Char} {mt : Str}
    (hm : m = m0 :: mt) (h0 : m0 ≠ '-') (h1 : m0 ≠ ' ') (mid w : Str)
    (hmid : ∀ i < mid.length, lpre m ((mid ++ (m ++ w)).drop i) = false) :
    splitOnSub m ('-' :: ' ' :: (m ++ (mid ++ (m ++ w)))) =
      ['-', ' '] :: mid :: splitOnSub m w := by
  have hwalk := splitOnSubAux_walk m ['-', ' '] (m ++ (mid ++ (m ++ w))) []
    (by
      intro i hi
      simp only [List.length_cons, List.length_nil] at hi
      interval_cases i
      · rw [hm]; exact lpre_cons_ne mt _ h0
      · rw [hm]; exact lpre_cons_ne mt _ h1)
  have hmatch := splitOnSubAux_match m (mid ++ (m ++ w)) [' ', '-'] (by simp [hm])
  have hwalk2 := splitOnSubAux_walk m mid (m ++ w) [] (by simpa using hmid)
  have hmatch2 := splitOnSubAux_match m w mid.reverse (by simp [hm])
  calc splitOnSub m ('-' :: ' ' :: (m ++ (mid ++ (m ++ w))))
      = splitOnSubAux m (['-', ' '] ++ (m ++ (mid ++ (m ++ w)))) [] 0 := rfl
    _ = splitOnSubAux m (m ++ (mid ++ (m ++ w))) [' ', '-'] 0 := by rw [hwalk]; rfl
    _ = ['-', ' '] :: splitOnSubAux m (mid ++ (m ++ w)) [] 0 := by rw [hmatch]; rfl
    _ = ['-', ' '] :: splitOnSubAux m (m ++ w) mid.reverse 0 := by rw [hwalk2]; simp
    _ = ['-', ' '] :: mid.reverse.reverse :: splitOnSubAux m w [] 0 := by rw [hmatch2]
    _ = ['-', ' '] :: mid :: splitOnSub m w := by simp [splitOnSub]

/-- Transfer marker-freedom of the value to the captured remainder
(which carries one leading blank from the line format). -/
theorem no_occ_space_cons {m : Str} {m0 : Char} {mt : Str}
    (hm : m = m0 :: mt) (h1 : m0 ≠ ' ') {v : Str}
    (hv : containsSub m v = false) :
    ∀ i ≤ (' ' :: v).length, lpre m ((' ' :: v).drop i) = false := by
  intro i hi
  cases i with
  | zero => exact hm ▸ lpre_cons_ne mt _ h1
  | succ j =>
    simpa using (containsSub_eq_false_iff m v).mp hv j (by simpa using hi)

/-- Propositional form of `lpre_window_false`, for `if_neg`. -/
theorem not_lpre_of_window {p s : Str}
    (h : p.take s.length ≠ s.take p.length) (v : Str) :
    ¬ (lpre p (s ++ v) = true) := by
  simp [lpre_window_false h v]

/-- An emphasized title line is recognized: the captured value is the
line remainder after `**Issue:**`, trimmed. -/
theorem processLine_title_emph (iss : Issue) (v : Str)
    (hv : containsSub titleSplit v = false) :
    processLine iss ("- **Issue:** ".toList ++ v) =
      { iss with title := some (pyStrip v) } := by
  have hm : titleSplit = '*' :: "*Issue:**".toList := by decide
  have eline : "- **Issue:** ".toList ++ v = '-' :: ' ' :: (titleSplit ++ (' ' :: v)) := by
    rw [show "- **Issue:** ".toList = '-' :: ' ' :: (titleSplit ++ [' ']) from by decide]
    simp
  have hstart : lpre titleStart ("- **Issue:** ".toList ++ v) = true := by
    rw [show "- **Issue:** ".toList = titleStart ++ [' '] from by decide, List.append_assoc]
    exact lpre_self_append _ _
  have hsplit : splitOnSub titleSplit ("- **Issue:** ".toList ++ v) = [['-', ' '], ' ' :: v] := by
    rw [eline]
    exact splitOnSub_marker_once hm (by decide) (by decide) (' ' :: v)
      (no_occ_space_cons hm (by decide) hv)
  unfold processLine
  rw [if_pos hstart, hsplit]
  simp [idx1, pyStrip_cons_space]

/-- A plain title line matches none of the five field markers: the
line is ignored. -/
theorem processLine_title_plain (iss : Issue) (v : Str) :
    processLine iss ("- Issue: ".toList ++ v) = iss := by
  unfold processLine
  rw [if_neg (not_lpre_of_window (by decide) v),
    if_neg (not_lpre_of_window (by decide) v),
    if_neg (not_lpre_of_window (by decide) v),
    if_neg (not_lpre_of_window (by decide) v),
    if_neg (not_lpre_of_window (by decide) v)]

/-- A plain details line is recognized. -/
theorem processLine_details_plain (iss : Issue) (v : Str)
    (hv : containsSub detailsSplit v = false) :
    processLine iss ("- Details: ".toList ++ v) =
      { iss with details := some (pyStrip v) } := by
  have hm : detailsSplit = 'D' :: "etails:".toList := by decide
  have eline : "- Details: ".toList ++ v = '-' :: ' ' :: (detailsSplit ++ (' ' :: v)) := by
    rw [show "- Details: ".toList = '-' :: ' ' :: (detailsSplit ++ [' ']) from by decide]
    simp
  have hstart : lpre detailsStart ("- Details: ".toList ++ v) = true := by
    rw [show "- Details: ".toList = detailsStart ++ [' '] from by decide, List.append_assoc]
    exact lpre_self_append _ _
  have hsplit : splitOnSub detailsSplit ("- Details: ".toList ++ v) = [['-', ' '], ' ' :: v] := by
    rw [eline]
    exact splitOnSub_marker_once hm (by decide) (by decide) (' ' :: v)
      (no_occ_space_cons hm (by decide) hv)
  unfold processLine
  rw [if_neg (not_lpre_of_window (by decide) v), if_pos hstart, hsplit]
  simp [idx1, pyStrip_cons_space]

/-- A details line whose text holds a second `Details:` occurrence:
the captured value stops at that occurrence. -/
theorem processLine_details_second (iss : Issue) (v w : Str)
    (hfirst : ∀ i < (' ' :: v).length,
      lpre detailsSplit (((' ' :: v) ++ (detailsSplit ++ w)).drop i) = false) :
    processLine iss ("- Details: ".toList ++ (v ++ (detailsSplit ++ w))) =
      { iss with details := some (pyStrip v) } := by
  have hm : detailsSplit = 'D' :: "etails:".toList := by decide
  have eline : "- Details: ".toList ++ (v ++ (detailsSplit ++ w)) =
      '-' :: ' ' :: (detailsSplit ++ ((' ' :: v) ++ (detailsSplit ++ w))) := by
    rw [show "- Details: ".toList = '-' :: ' ' :: (detailsSplit ++ [' ']) from by decide]
    simp
  have hstart : lpre detailsStart ("- Details: ".toList ++ (v ++ (detailsSplit ++ w))) = true := by
    rw [show "- Details: ".toList = detailsStart ++ [' '] from by decide, List.append_assoc]
    exact lpre_self_append _ _
  have hsplit : splitOnSub detailsSplit ("- Details: ".toList ++ (v ++ (detailsSplit ++ w))) =
      ['-', ' '] :: (' ' :: v) :: splitOnSub detailsSplit w := by
    rw [eline]
    exact splitOnSub_marker_twice hm (by decide) (by decide) (' ' :: v) w hfirst
  unfold processLine
  rw [if_neg (not_lpre_of_window (by decide) (v ++ (detailsSplit ++ w))), if_pos hstart, hsplit]
  simp [idx1, pyStrip_cons_space]

/-- An emphasized details line matches no field marker: ignored. -/
theorem processLine_details_emph (iss : Issue) (v : Str) :
    processLine iss ("- **Details:** ".toList ++ v) = iss := by
  unfold processLine
  rw [if_neg (not_lpre_of_window (by decide) v),
    if_neg (not_lpre_of_window (by decide) v),
    if_neg (not_lpre_of_window (by decide) v),
    if_neg (not_lpre_of_window (by decide) v),
    if_neg (not_lpre_of_window (by decide) v)]

/-- A plain expected-correct-state line is recognized. -/
theorem processLine_expected_plain (iss : Issue) (v : Str)
    (hv : containsSub expectedSplit v = false) :
    processLine iss ("- Expected correct state: ".toList ++ v) =
      { iss with expected := some (pyStrip v) } := by
  have hm : expectedSplit = 'E' :: "xpected correct state:".toList := by decide
  have eline : "- Expected correct state: ".toList ++ v =
      '-' :: ' ' :: (expectedSplit ++ (' ' :: v)) := by
    rw [show "- Expected correct state: ".toList =
      '-' :: ' ' :: (expectedSplit ++ [' ']) from by decide]
    simp
  have hstart : lpre expectedStart ("- Expected correct state: ".toList ++ v) = true := by
    rw [show "- Expected correct state: ".toList = expectedStart ++ [' '] from by decide,
      List.append_assoc]
    exact lpre_self_append _ _
  have hsplit : splitOnSub expectedSplit ("- Expected correct state: ".toList ++ v) =
      [['-', ' '], ' ' :: v] := by
    rw [eline]
    exact splitOnSub_marker_once hm (by decide) (by decide) (' ' :: v)
      (no_occ_space_cons hm (by decide) hv)
  unfold processLine
  rw [if_neg (not_lpre_of_window (by decide) v), if_neg (not_lpre_of_window (by decide) v),
    if_pos hstart, hsplit]
  simp [idx1, pyStrip_cons_space]

/-- An emphasized expected-correct-state line is ignored. -/
theorem processLine_expected_emph (iss : Issue) (v : Str) :
    processLine iss ("- **Expected correct state:** ".toList ++ v) = iss := by
  unfold processLine
  rw [if_neg (not_lpre_of_window (by decide) v),
    if_neg (not_lpre_of_window (by decide) v),
    if_neg (not_lpre_of_window (by decide) v),
    if_neg (not_lpre_of_window (by decide) v),
    if_neg (not_lpre_of_window (by decide) v)]

/-- A plain violated-constraint line is recognized. -/
theorem processLine_constraint_plain (iss : Issue) (v : Str)
    (hv : containsSub constraintSplit v = false) :
    processLine iss ("- Violated constraint: ".toList ++ v) =
      { iss with constraint := some (pyStrip v) } := by
  have hm : constraintSplit = 'V' :: "iolated constraint:".toList := by decide
  have eline : "- Violated constraint: ".toList ++ v =
      '-' :: ' ' :: (constraintSplit ++ (' ' :: v)) := by
    rw [show "- Violated constraint: ".toList =
      '-' :: ' ' :: (constraintSplit ++ [' ']) from by decide]
    simp
  have hstart : lpre constraintStart ("- Violated constraint: ".toList ++ v) = true := by
    rw [show "- Violated constraint: ".toList = constraintStart ++ [' '] from by decide,
      List.append_assoc]
    exact lpre_self_append _ _
  have hsplit : splitOnSub constraintSplit ("- Violated constraint: ".toList ++ v) =
      [['-', ' '], ' ' :: v] := by
    rw [eline]
    exact splitOnSub_marker_once hm (by decide) (by decide) (' ' :: v)
      (no_occ_space_cons hm (by decide) hv)
  unfold processLine
  rw [if_neg (not_lpre_of_window (by decide) v), if_neg (not_lpre_of_window (by decide) v),
    if_neg (not_lpre_of_window (by decide) v), if_pos hstart, hsplit]
  simp [idx1, pyStrip_cons_space]

/-- An emphasized violated-constraint line is ignored. -/
theorem processLine_constraint_emph (iss : Issue) (v : Str) :
    processLine iss ("- **Violated constraint:** ".toList ++ v) = iss := by
  unfold processLine
  rw [if_neg (not_lpre_of_window (by decide) v),
    if_neg (not_lpre_of_window (by decide) v),
    if_neg (not_lpre_of_window (by decide) v),
    if_neg (not_lpre_of_window (by decide) v),
    if_neg (not_lpre_of_window (by decide) v)]

/-- A plain location line is recognized. -/
theorem processLine_location_plain (iss : Issue) (v : Str)
    (hv : containsSub locationSplit v = false) :
    processLine iss ("- Location: ".toList ++ v) =
      { iss with location := some (pyStrip v) } := by
  have hm : locationSplit = 'L' :: "ocation:".toList := by decide
  have eline : "- Location: ".toList ++ v = '-' :: ' ' :: (locationSplit ++ (' ' :: v)) := by
    rw [show "- Location: ".toList = '-' :: ' ' :: (locationSplit ++ [' ']) from by decide]
    simp
  have hstart : lpre locationStart ("- Location: ".toList ++ v) = true := by
    rw [show "- Location: ".toList = locationStart ++ [' '] from by decide, List.append_assoc]
    exact lpre_self_append _ _
  have hsplit : splitOnSub locationSplit ("- Location: ".toList ++ v) =
      [['-', ' '], ' ' :: v] := by
    rw [eline]
    exact splitOnSub_marker_once hm (by decide) (by decide) (' ' :: v)
      (no_occ_space_cons hm (by decide) hv)
  unfold processLine
  rw [if_neg (not_lpre_of_window (by decide) v), if_neg (not_lpre_of_window (by decide) v),
    if_neg (not_lpre_of_window (by decide) v), if_neg (not_lpre_of_window (by decide) v),
    if_pos hstart, hsplit]
  simp [idx1, pyStrip_cons_space]

/-- An emphasized location line is ignored. -/
theorem processLine_location_emph (iss : Issue) (v : Str) :
    processLine iss ("- **Location:** ".toList ++ v) = iss := by
  unfold processLine
  rw [if_neg (not_lpre_of_window (by decide) v),
    if_neg (not_lpre_of_window (by decide) v),
    if_neg (not_lpre_of_window (by decide) v),
    if_neg (not_lpre_of_window (by decide) v),
    if_neg (not_lpre_of_window (by decide) v)]

/-- `headerAt` is the disjunction of the two literal matches. -/
theorem headerAt_eq_false_iff (s : Str) :
    headerAt s = false ↔ lpre hdrFile s = false ∧ lpre hdrTable s = false := by
  simp [headerAt]

/-- Text with no match position for `pat` (even allowing the match to
run past its right end into `rest`) does not contain `pat`. -/
theorem containsSub_of_no_pos {pat : Str} (hp : pat ≠ []) (pre rest : Str)
    (h : ∀ i < pre.length, lpre pat ((pre ++ rest).drop i) = false) :
    containsSub pat pre = false := by
  rw [containsSub_eq_false_iff]
  intro i hi
  rcases Nat.lt_or_ge i pre.length with hlt | hge
  · by_contra hc
    have htrue : lpre pat (pre.drop i) = true := by
      cases hv : lpre pat (pre.drop i) with
      | false => exact absurd hv hc
      | true => rfl
    have hext : lpre pat ((pre ++ rest).drop i) = true := by
      rw [List.drop_append_eq_append_drop, Nat.sub_eq_zero_of_le (Nat.le_of_lt hlt),
        List.drop_zero]
      exact lpre_append_left htrue rest
    rw [h i hlt] at hext
    exact Bool.false_ne_true hext
  · have : i = pre.length := Nat.le_antisymm hi hge
    subst this
    rw [List.drop_length]
    cases pat with
    | nil => exact absurd rfl hp
    | cons p pt => rfl

/-- Splitting text that holds no header match position returns it whole. -/
theorem splitLookahead_no_header (content : Str)
    (h : ∀ i < content.length, headerAt (content.drop i) = false) :
    splitLookahead content = [content] := by
  have hw := splitLAAux_walk content [] []
    (fun i hi => by simpa using h i (by simpa using hi))
  simp only [List.append_nil] at hw
  rw [splitLookahead, hw, splitLAAux]
  simp

/-- A blob with no header match anywhere parses to nothing. -/
theorem extract_no_header (content : Str)
    (h : ∀ i < content.length, headerAt (content.drop i) = false) :
    extract_issues_from_txt content = [] := by
  unfold extract_issues_from_txt
  rw [splitLookahead_no_header content h]
  have hf : containsSub hdrFile content = false :=
    containsSub_of_no_pos (by decide) content []
      (fun i hi => by
        rw [List.append_nil]
        exact ((headerAt_eq_false_iff _).mp (h i hi)).1)
  have ht : containsSub hdrTable content = false :=
    containsSub_of_no_pos (by decide) content []
      (fun i hi => by
        rw [List.append_nil]
        exact ((headerAt_eq_false_iff _).mp (h i hi)).2)
  simp [hf, ht]

/-- A header-free preamble in front of a header contributes nothing:
the parse of the whole equals the parse of the rest. -/
theorem extract_drop_preamble (pre rest : Str)
    (h : ∀ i < pre.length, headerAt ((pre ++ rest).drop i) = false)
    (hs : headerAt rest = true) :
    extract_issues_from_txt (pre ++ rest) = extract_issues_from_txt rest := by
  cases rest with
  | nil => exact absurd hs (by decide)
  | cons r rt =>
    have hw := splitLAAux_walk pre (r :: rt) [] h
    have hm1 : splitLAAux (r :: rt) (pre.reverse ++ []) =
        (pre.reverse ++ []).reverse :: splitLAAux rt [r] := by
      rw [splitLAAux, if_pos hs]
    have hm2 : splitLAAux (r :: rt) [] = [] :: splitLAAux rt [r] := by
      rw [splitLAAux, if_pos hs]; rfl
    have hcf : containsSub hdrFile pre = false :=
      containsSub_of_no_pos (by decide) pre (r :: rt)
        (fun i hi => ((headerAt_eq_false_iff _).mp (h i hi)).1)
    have hct : containsSub hdrTable pre = false :=
      containsSub_of_no_pos (by decide) pre (r :: rt)
        (fun i hi => ((headerAt_eq_false_iff _).mp (h i hi)).2)
    unfold extract_issues_from_txt
    rw [splitLookahead, hw, hm1, splitLookahead, hm2]
    simp only [List.flatMap_cons, List.append_nil, List.reverse_reverse]
    rw [hcf, hct]
    simp only [Bool.or_self, Bool.false_eq_true, if_false]
    have hnil : (if containsSub hdrFile [] || containsSub hdrTable [] then
        (splitOnSub dashSep []).filterMap (processBlock
          (match findHeaderName [] with
           | some g => pyStrip g
           | none => "Unknown".toList)) else []) = ([] : List Issue) := by decide
    rw [hnil]

/-- Any record the per-block scan emits carries the section's filename
and a recognized title. -/
theorem processBlock_some {filename block : Str} {r : Issue}
    (h : processBlock filename block = some r) :
    r.file = some filename ∧ r.title.isSome = true := by
  simp only [processBlock] at h
  split at h
  · exact absurd h (by simp)
  · split at h
    · rename_i htitle
      cases h
      exact ⟨by rw [foldl_processLine_file]; rfl, htitle⟩
    · exact absurd h (by simp)

/-- A sub-block none of whose lines starts with the emphasized title
marker yields no record. -/
theorem processBlock_no_title (filename block : Str)
    (h : ∀ l ∈ pySplitlines (pyStrip block), lpre titleStart l = false) :
    processBlock filename block = none := by
  simp only [processBlock]
  split
  · rfl
  · rw [if_neg]
    rw [foldl_processLine_title _ _ h]
    simp [initIssue]

/-- The metrics component of the per-file loop does not depend on the
backend outcomes at all: metrics are extended before each call and a
failed call only skips the output section. -/
theorem analyzeFilesLoop_metrics (now : String) (bk bk2 : ℕ → BackendResult) :
    ∀ (i i2 : ℕ) (files : List (String × DataFrame)),
      (analyzeFilesLoop now bk i files).map Prod.fst =
        (analyzeFilesLoop now bk2 i2 files).map Prod.fst := by
  intro i i2 files
  induction files generalizing i i2 with
  | nil => rfl
  | cons f fs ih =>
    obtain ⟨path, df⟩ := f
    simp only [analyzeFilesLoop]
    cases hc : compute_dynamic_metrics df (pyBasename path) now with
    | error e => rfl
    | ok ms =>
      have hrec := ih (i + 1) (i2 + 1)
      cases h1 : analyzeFilesLoop now bk (i + 1) fs with
      | error e =>
        cases h2 : analyzeFilesLoop now bk2 (i2 + 1) fs with
        | error e2 =>
          rw [h1, h2] at hrec
          simp only [Except.map] at hrec
          cases hrec
          rfl
        | ok p =>
          rw [h1, h2] at hrec
          simp only [Except.map] at hrec
          exact absurd hrec (by simp)
      | ok p =>
        cases h2 : analyzeFilesLoop now bk2 (i2 + 1) fs with
        | error e2 =>
          rw [h1, h2] at hrec
          simp only [Except.map] at hrec
          exact absurd hrec (by simp)
        | ok q =>
          rw [h1, h2] at hrec
          simp only [Except.map, Except.ok.injEq] at hrec
          obtain ⟨mp, sp⟩ := p
          obtain ⟨mq, sq⟩ := q
          simp only at hrec
          cases bk i <;> cases bk2 i2 <;> simp [hrec, Except.map]

/-- The sections component of the per-file loop: exactly the files
whose backend call succeeded appear, in order. -/
theorem analyzeFilesLoop_sections (now : String) (bk : ℕ → BackendResult) :
    ∀ (i : ℕ) (files : List (String × DataFrame)) ms secs,
      analyzeFilesLoop now bk i files = .ok (ms, secs) →
      secs = expectedSections bk i files := by
  intro i files
  induction files generalizing i with
  | nil =>
    intro ms secs h
    simp only [analyzeFilesLoop, Except.ok.injEq, Prod.mk.injEq] at h
    rw [expectedSections, ← h.2]
  | cons f fs ih =>
    obtain ⟨path, df⟩ := f
    intro ms secs h
    simp only [analyzeFilesLoop] at h
    cases hc : compute_dynamic_metrics df (pyBasename path) now with
    | error e => rw [hc] at h; exact absurd h (by simp)
    | ok m0 =>
      rw [hc] at h
      cases hr : analyzeFilesLoop now bk (i + 1) fs with
      | error e => rw [hr] at h; exact absurd h (by simp)
      | ok p =>
        rw [hr] at h
        obtain ⟨restM, restS⟩ := p
        have hrec := ih (i + 1) restM restS hr
        cases hb : bk i with
        | ok reply =>
          rw [hb] at h
          simp only [Except.ok.injEq, Prod.mk.injEq] at h
          rw [← h.2, hrec]
          simp [expectedSections, hb]
        | badEnvelope raw =>
          rw [hb] at h
          simp only [Except.ok.injEq, Prod.mk.injEq] at h
          rw [← h.2, hrec]
          simp [expectedSections, hb]
        | exn msg =>
          rw [hb] at h
          simp only [Except.ok.injEq, Prod.mk.injEq] at h
          rw [← h.2, hrec]
          simp [expectedSections, hb]

/-! ## The claims -/

/-- A blob with one well-formed sub-block and one titleless sub-block. -/
def blobC7 : Str :=
  "Analysis for file: t\n- **Issue:** Good\n---\n- Details: orphan\n---".toList

/-- The single record `blobC7` parses to. -/
def recC7 : Issue :=
  { file := some "t".toList, title := some "Good".toList, details := none,
    expected := none, constraint := none, location := none }

/-- C7: a sub-block in which no title field line is recognized produces
no IssueRecord at all; in particular a blob with one well-formed
sub-block and one titleless sub-block parses to exactly one record. -/
theorem claimC7_thm (fname block : Str)
    (h : ∀ l ∈ pySplitlines (pyStrip block), lpre titleStart l = false) :
    processBlock fname block = none ∧ extract_issues_from_txt blobC7 = [recC7] :=
  ⟨processBlock_no_title fname block h, by decide⟩

/-- C7 witness: a concrete titleless sub-block is dropped. -/
theorem claimC7_witness :
    processBlock "f".toList "- Details: x".toList = none ∧
      extract_issues_from_txt blobC7 = [recC7] :=
  claimC7_thm "f".toList "- Details: x".toList (by decide)

/-- A concrete blob for the determinism witness. -/
def blobC8 : Str := "Analysis for file: q\n- **Issue:** E\n---".toList

/-- C8: the issue parser is a deterministic pure function of the blob
text: equal blobs parse to identical ordered record sequences. -/
theorem claimC8_thm (b1 b2 : Str) (h : b1 = b2) :
    extract_issues_from_txt b1 = extract_issues_from_txt b2 := by
  rw [h]

/-- C8 witness: parsing the same blob twice gives the same sequence. -/
theorem claimC8_witness :
    extract_issues_from_txt blobC8 = extract_issues_from_txt blobC8 :=
  claimC8_thm blobC8 blobC8 rfl

/-- The numeric column of the C9 scenario: rows `[0, -1, 2, 0]`. -/
def valsC9 : List (Option ℚ) := [some 0, some (-1), some 2, some 0]

/-- C9: for a numeric column, `zero_values_pct` and
`negative_values_pct` are the zero / negative cell counts divided by
the total row count, times 100. -/
theorem claimC9_thm (name tn now : String) (vals : List (Option ℚ)) (total : ℕ)
    (h : total ≠ 0) :
    (compute_dynamic_metrics ⟨total, [⟨name, ColData.numeric vals⟩]⟩ tn now).map
        (fun ms => ms.map fun e => (e.zero_values_pct, e.negative_values_pct)) =
      .ok [(some (NpVal.val ((vals.countP (fun o => o == some (0 : ℚ)) : ℚ) / (total : ℚ) * 100)),
            some (NpVal.val ((vals.countP (fun o => (o.map (fun q => decide (q < 0))).getD false) : ℚ) /
              (total : ℚ) * 100)))] := by
  simp [compute_dynamic_metrics, computeAux, entryFor, pyDivQ, h, npDivNat, npMul100, Except.map]

/-- C9 witness: the scenario `[0, -1, 2, 0]` yields 50.0 and 25.0. -/
theorem claimC9_witness :
    (compute_dynamic_metrics ⟨4, [⟨"c", ColData.numeric valsC9⟩]⟩ "tab" "now").map
        (fun ms => ms.map fun e => (e.zero_values_pct, e.negative_values_pct)) =
      .ok [(some (NpVal.val 50), some (NpVal.val 25))] := by
  have h := claimC9_thm "c" "tab" "now" valsC9 4 (by decide)
  rw [h, show valsC9.countP (fun o => o == some (0 : ℚ)) = 2 from by decide,
    show valsC9.countP (fun o => (o.map (fun q => decide (q < 0))).getD false) = 1 from by decide]
  norm_num

/-- A concrete blob for the C10 witness. -/
def blobC10 : Str := "Analysis for file: z\n- **Issue:** W\n---".toList

/-- The record `blobC10` parses to. -/
def recC10 : Issue :=
  { file := some "z".toList, title := some "W".toList, details := none,
    expected := none, constraint := none, location := none }

/-- C10: every record the parser returns has both its owning-file
field and its title field present. -/
theorem claimC10_thm (content : Str) (r : Issue)
    (h : r ∈ extract_issues_from_txt content) :
    r.file.isSome = true ∧ r.title.isSome = true := by
  unfold extract_issues_from_txt at h
  rcases List.mem_flatMap.mp h with ⟨sect, hsect, hr⟩
  split at hr
  · rcases List.mem_filterMap.mp hr with ⟨b, hb, hpb⟩
    obtain ⟨hfile, htitle⟩ := processBlock_some hpb
    exact ⟨by rw [hfile]; rfl, htitle⟩
  · exact absurd hr (by simp)

/-- C10 witness: a concrete returned record has both fields. -/
theorem claimC10_witness : recC10.file.isSome = true ∧ recC10.title.isSome = true :=
  claimC10_thm blobC10 recC10 (by decide)

/-- A blob whose only title line uses the plain `- Issue:` form. -/
def blobC1a : Str := "Analysis for file: t\n- Issue: T\n---".toList

/-- A blob whose details line uses the emphasized `- **Details:**` form. -/
def blobC1b : Str :=
  "Analysis for file: t\n- **Issue:** T\n- **Details:** D\n---".toList

/-- The record `blobC1b` parses to: no details captured. -/
def recC1b : Issue :=
  { file := some "t".toList, title := some "T".toList, details := none,
    expected := none, constraint := none, location := none }

/-- C1 counterexample: a plain `- Issue:` title line is not recognized
(the sub-block is dropped entirely), and an emphasized `- **Details:**`
line is not recognized either (the details key stays unset), so the
parser does not support both marker styles for each field. -/
theorem claimC1_counterexample :
    extract_issues_from_txt blobC1a = [] ∧
      extract_issues_from_txt blobC1b = [recC1b] ∧ recC1b.details = none := by
  refine ⟨by decide, by decide, rfl⟩

/-- C1 amended: each field is recognized in exactly one marker style —
the title only in the emphasized `- **Issue:**` form, the other four
fields only in their plain `- Field:` form; the other style of each
marker leaves the line unrecognized. -/
theorem claimC1_amended (iss : Issue) (v : Str)
    (ht : containsSub titleSplit v = false)
    (hd : containsSub detailsSplit v = false)
    (he : containsSub expectedSplit v = false)
    (hc : containsSub constraintSplit v = false)
    (hl : containsSub locationSplit v = false) :
    processLine iss ("- **Issue:** ".toList ++ v) = { iss with title := some (pyStrip v) } ∧
    processLine iss ("- Issue: ".toList ++ v) = iss ∧
    processLine iss ("- Details: ".toList ++ v) = { iss with details := some (pyStrip v) } ∧
    processLine iss ("- **Details:** ".toList ++ v) = iss ∧
    processLine iss ("- Expected correct state: ".toList ++ v) =
      { iss with expected := some (pyStrip v) } ∧
    processLine iss ("- **Expected correct state:** ".toList ++ v) = iss ∧
    processLine iss ("- Violated constraint: ".toList ++ v) =
      { iss with constraint := some (pyStrip v) } ∧
    processLine iss ("- **Violated constraint:** ".toList ++ v) = iss ∧
    processLine iss ("- Location: ".toList ++ v) = { iss with location := some (pyStrip v) } ∧
    processLine iss ("- **Location:** ".toList ++ v) = iss :=
  ⟨processLine_title_emph iss v ht, processLine_title_plain iss v,
   processLine_details_plain iss v hd, processLine_details_emph iss v,
   processLine_expected_plain iss v he, processLine_expected_emph iss v,
   processLine_constraint_plain iss v hc, processLine_constraint_emph iss v,
   processLine_location_plain iss v hl, processLine_location_emph iss v⟩

/-- C1 witness: the recognition facts at a concrete issue and value. -/
theorem claimC1_witness :
    processLine (initIssue "w".toList) ("- **Issue:** ".toList ++ "value".toList) =
      { initIssue "w".toList with title := some (pyStrip "value".toList) } ∧
    processLine (initIssue "w".toList) ("- Issue: ".toList ++ "value".toList) =
      initIssue "w".toList := by
  have h := claimC1_amended (initIssue "w".toList) "value".toList
    (by decide) (by decide) (by decide) (by decide) (by decide)
  exact ⟨h.1, h.2.1⟩

/-- The exact blob of the C2 scenario. -/
def blobC2 : Str :=
  "Analysis for file: a.csv\n- **Issue:** Dup rows\n- Details: 3 duplicate keys\n---\nAnalysis for file: b.csv\n- Issue: Null ids\n---".toList

/-- The single record the code extracts from `blobC2`. -/
def recC2 : Issue :=
  { file := some "a.csv".toList, title := some "Dup rows".toList,
    details := some "3 duplicate keys".toList, expected := none,
    constraint := none, location := none }

/-- C2 counterexample: the scenario blob does not yield two records. -/
theorem claimC2_counterexample : (extract_issues_from_txt blobC2).length ≠ 2 := by
  decide

/-- C2 amended: the scenario blob parses to exactly one record — the
`a.csv` one; the `b.csv` sub-block is dropped because its plain
`- Issue:` line is not recognized as a title. -/
theorem claimC2_amended : extract_issues_from_txt blobC2 = [recC2] := by
  decide

/-- A zero-row single-column table. -/
def dfC3 : DataFrame := ⟨0, [⟨"c", ColData.numeric []⟩]⟩

/-- C3 counterexample: on a zero-row table the metrics pass raises
`ZeroDivisionError`; it does not report the specified
`EmptyTableError`. -/
theorem claimC3_counterexample :
    compute_dynamic_metrics dfC3 "t" "now" = .error PyError.zeroDivision ∧
      compute_dynamic_metrics dfC3 "t" "now" ≠ .error PyError.emptyTable := by
  constructor
  · rfl
  · intro h
    rw [show compute_dynamic_metrics dfC3 "t" "now" = .error PyError.zeroDivision from rfl] at h
    exact absurd (by injection h) (by decide)

/-- C3 amended: for every table with zero rows and at least one
column, the metrics computation fails with an unhandled
`ZeroDivisionError` raised at the uniqueness division (there is no
`EmptyTableError` path in the code). -/
theorem claimC3_amended (df : DataFrame) (tn now : String)
    (h0 : df.nrows = 0) (h1 : df.cols ≠ []) :
    compute_dynamic_metrics df tn now = .error PyError.zeroDivision := by
  obtain ⟨n, cols⟩ := df
  simp only at h0
  subst h0
  cases cols with
  | nil => exact absurd rfl h1
  | cons c cs =>
    unfold compute_dynamic_metrics computeAux entryFor
    simp [pyDivQ]

/-- C3 witness: a concrete zero-row table errors with division by zero. -/
theorem claimC3_witness :
    compute_dynamic_metrics ⟨0, [⟨"d", ColData.text []⟩]⟩ "t" "n" =
      .error PyError.zeroDivision :=
  claimC3_amended ⟨0, [⟨"d", ColData.text []⟩]⟩ "t" "n" rfl (by decide)

/-- A blob whose preamble holds a titled sub-block before the first
header line. -/
def blobC4pre : Str :=
  "- **Issue:** P\n---\nAnalysis for file: t\n- **Issue:** X\n---".toList

/-- The only record the code extracts from `blobC4pre`. -/
def recC4x : Issue :=
  { file := some "t".toList, title := some "X".toList, details := none,
    expected := none, constraint := none, location := none }

/-- C4 counterexample: the titled sub-block in the preamble is
discarded, not emitted with owner `"Unknown"`. -/
theorem claimC4_counterexample :
    extract_issues_from_txt blobC4pre = [recC4x] ∧
      ∀ r ∈ extract_issues_from_txt blobC4pre, r.file ≠ some "Unknown".toList := by
  refine ⟨by decide, by decide⟩

/-- A blob whose header marker appears without the space-separated
name, so the filename regex finds no match. -/
def blobC4u : Str := "xAnalysis for file:\n- **Issue:** T\n---".toList

/-- The `"Unknown"`-owned record extracted from `blobC4u`. -/
def recC4u : Issue :=
  { file := some "Unknown".toList, title := some "T".toList, details := none,
    expected := none, constraint := none, location := none }

/-- C4 amended: a leading preamble before the first header marker is
discarded entirely (and a blob with no header marker at all parses to
nothing); the `"Unknown"` sentinel only appears for a section that
contains the header marker substring but in which the header regex
(which requires a blank after the colon) finds no match. -/
theorem claimC4_amended :
    (∀ pre rest : Str, (∀ i < pre.length, headerAt ((pre ++ rest).drop i) = false) →
        headerAt rest = true →
        extract_issues_from_txt (pre ++ rest) = extract_issues_from_txt rest) ∧
    (∀ content : Str, (∀ i < content.length, headerAt (content.drop i) = false) →
        extract_issues_from_txt content = []) ∧
    extract_issues_from_txt blobC4u = [recC4u] :=
  ⟨extract_drop_preamble, extract_no_header, by decide⟩

/-- C4 witness: a concrete preamble is dropped and a concrete
header-free blob parses to nothing. -/
theorem claimC4_witness :
    extract_issues_from_txt ("p\n".toList ++ "Analysis for file: t\n- **Issue:** W4\n---".toList) =
      extract_issues_from_txt "Analysis for file: t\n- **Issue:** W4\n---".toList ∧
    extract_issues_from_txt "no headers here\n- **Issue:** Q\n---".toList = [] := by
  have h := claimC4_amended
  exact ⟨h.1 "p\n".toList _ (by decide) (by decide), h.2.1 _ (by decide)⟩

/-- The single-file batch used by the C5 refutation. -/
def dfC5 : DataFrame := ⟨1, [⟨"c", ColData.numeric [some 1]⟩]⟩

/-- See `dfC5`. -/
def filesC5 : List (String × DataFrame) := [("a.csv", dfC5)]

/-- A backend whose every per-file call succeeds. -/
def bkC5 : ℕ → BackendResult := fun _ => .ok "r"

/-- C5 counterexample: when the cross-file call fails, the whole batch
is aborted — no metrics and no output sections at all — although the
same batch with a working cross-file call produces one metrics row and
two sections. -/
theorem claimC5_counterexample :
    analyze_csv_files filesC5 "t" (.exn "boom") bkC5 = .ok ([], []) ∧
      (analyze_csv_files filesC5 "t" (.ok "x") bkC5).map
        (fun p => (p.1.length, p.2.length)) = .ok (1, 2) := by
  refine ⟨rfl, by rfl⟩

/-- C5 amended: a cross-file backend failure aborts the whole pass
(empty metrics, nothing written); a per-file backend failure, in
contrast, only removes that file's output section — the metrics of
every file (the failing one included) and the sections of the
succeeding files are unaffected. -/
theorem claimC5_amended :
    (∀ (files : List (String × DataFrame)) (now msg : String) (bk : ℕ → BackendResult),
      analyze_csv_files files now (.exn msg) bk = .ok ([], []) ∧
      analyze_csv_files files now (.badEnvelope msg) bk = .ok ([], [])) ∧
    (∀ (files : List (String × DataFrame)) (now : String) (bk bk2 : ℕ → BackendResult)
        (reply : String),
      (analyze_csv_files files now (.ok reply) bk).map Prod.fst =
        (analyze_csv_files files now (.ok reply) bk2).map Prod.fst) ∧
    (∀ (files : List (String × DataFrame)) (now : String) (bk : ℕ → BackendResult)
        (reply : String) (ms : List MetricEntry) (secs : List String),
      analyze_csv_files files now (.ok reply) bk = .ok (ms, secs) →
      secs = crossSection reply :: expectedSections bk 0 files) := by
  refine ⟨fun files now msg bk => ⟨rfl, rfl⟩, ?_, ?_⟩
  · intro files now bk bk2 reply
    simp only [analyze_csv_files]
    have hm := analyzeFilesLoop_metrics now bk bk2 0 0 files
    cases h1 : analyzeFilesLoop now bk 0 files with
    | error e =>
      cases h2 : analyzeFilesLoop now bk2 0 files with
      | error e2 =>
        rw [h1, h2] at hm
        simp only [Except.map] at hm
        cases hm
        rfl
      | ok q =>
        rw [h1, h2] at hm
        simp only [Except.map] at hm
        exact absurd hm (by simp)
    | ok p =>
      cases h2 : analyzeFilesLoop now bk2 0 files with
      | error e2 =>
        rw [h1, h2] at hm
        simp only [Except.map] at hm
        exact absurd hm (by simp)
      | ok q =>
        rw [h1, h2] at hm
        simp only [Except.map, Except.ok.injEq] at hm
        obtain ⟨mp, sp⟩ := p
        obtain ⟨mq, sq⟩ := q
        simp only at hm
        simp [Except.map, hm]
  · intro files now bk reply ms secs h
    simp only [analyze_csv_files] at h
    cases hl : analyzeFilesLoop now bk 0 files with
    | error e => rw [hl] at h; exact absurd h (by simp)
    | ok p =>
      rw [hl] at h
      obtain ⟨m, s⟩ := p
      simp only [Except.ok.injEq, Prod.mk.injEq] at h
      rw [← h.2, analyzeFilesLoop_sections now bk 0 files m s hl]

/-- The single-file batch of the C5 witness (a column-free table, so
the metrics list is empty and the run is fully computable). -/
def dfC5w : DataFrame := ⟨1, []⟩

/-- See `dfC5w`. -/
def filesC5w : List (String × DataFrame) := [("b.csv", dfC5w)]

/-- A backend whose every per-file call raises. -/
def bkC5w : ℕ → BackendResult := fun _ => .exn "api down"

/-- C5 witness: the amended statement at a concrete batch whose one
per-file call fails — only the cross-file section is written. -/
theorem claimC5_witness :
    analyze_csv_files filesC5w "t" (.exn "boom2") bkC5w = .ok ([], []) ∧
      [crossSection "x"] = crossSection "x" :: expectedSections bkC5w 0 filesC5w := by
  constructor
  · exact (claimC5_amended.1 filesC5w "t" "boom2" bkC5w).1
  · exact claimC5_amended.2.2 filesC5w "t" bkC5w "x" [] [crossSection "x"] (by rfl)

/-- A blob whose details value holds a second `Details:` occurrence. -/
def blobC6 : Str :=
  "Analysis for file: t\n- **Issue:** T\n- Details: a Details: b\n---".toList

/-- The record the code extracts from `blobC6`: details truncated. -/
def recC6 : Issue :=
  { file := some "t".toList, title := some "T".toList,
    details := some "a".toList, expected := none, constraint := none,
    location := none }

/-- C6 counterexample: the captured details value is `"a"`, not the
whole line remainder `"a Details: b"` the claim promises. -/
theorem claimC6_counterexample :
    extract_issues_from_txt blobC6 = [recC6] ∧
      recC6.details ≠ some "a Details: b".toList := by
  refine ⟨by decide, by decide⟩

/-- A title line whose text holds a second `**Issue:**` occurrence:
the captured value stops at that occurrence. -/
theorem processLine_title_second (iss : Issue) (v w : Str)
    (hfirst : ∀ i < (' ' :: v).length,
      lpre titleSplit (((' ' :: v) ++ (titleSplit ++ w)).drop i) = false) :
    processLine iss ("- **Issue:** ".toList ++ (v ++ (titleSplit ++ w))) =
      { iss with title := some (pyStrip v) } := by
  have hm : titleSplit = '*' :: "*Issue:**".toList := by decide
  have eline : "- **Issue:** ".toList ++ (v ++ (titleSplit ++ w)) =
      '-' :: ' ' :: (titleSplit ++ ((' ' :: v) ++ (titleSplit ++ w))) := by
    rw [show "- **Issue:** ".toList = '-' :: ' ' :: (titleSplit ++ [' ']) from by decide]
    simp
  have hstart : lpre titleStart ("- **Issue:** ".toList ++ (v ++ (titleSplit ++ w))) = true := by
    rw [show "- **Issue:** ".toList = titleStart ++ [' '] from by decide, List.append_assoc]
    exact lpre_self_append _ _
  have hsplit : splitOnSub titleSplit ("- **Issue:** ".toList ++ (v ++ (titleSplit ++ w))) =
      ['-', ' '] :: (' ' :: v) :: splitOnSub titleSplit w := by
    rw [eline]
    exact splitOnSub_marker_twice hm (by decide) (by decide) (' ' :: v) w hfirst
  unfold processLine
  rw [if_pos hstart, hsplit]
  simp [idx1, pyStrip_cons_space]

/-- An expected-correct-state line whose text holds a second
`Expected correct state:` occurrence: the captured value stops there. -/
theorem processLine_expected_second (iss : Issue) (v w : Str)
    (hfirst : ∀ i < (' ' :: v).length,
      lpre expectedSplit (((' ' :: v) ++ (expectedSplit ++ w)).drop i) = false) :
    processLine iss ("- Expected correct state: ".toList ++ (v ++ (expectedSplit ++ w))) =
      { iss with expected := some (pyStrip v) } := by
  have hm : expectedSplit = 'E' :: "xpected correct state:".toList := by decide
  have eline : "- Expected correct state: ".toList ++ (v ++ (expectedSplit ++ w)) =
      '-' :: ' ' :: (expectedSplit ++ ((' ' :: v) ++ (expectedSplit ++ w))) := by
    rw [show "- Expected correct state: ".toList =
      '-' :: ' ' :: (expectedSplit ++ [' ']) from by decide]
    simp
  have hstart : lpre expectedStart
      ("- Expected correct state: ".toList ++ (v ++ (expectedSplit ++ w))) = true := by
    rw [show "- Expected correct state: ".toList = expectedStart ++ [' '] from by decide,
      List.append_assoc]
    exact lpre_self_append _ _
  have hsplit : splitOnSub expectedSplit
      ("- Expected correct state: ".toList ++ (v ++ (expectedSplit ++ w))) =
      ['-', ' '] :: (' ' :: v) :: splitOnSub expectedSplit w := by
    rw [eline]
    exact splitOnSub_marker_twice hm (by decide) (by decide) (' ' :: v) w hfirst
  unfold processLine
  rw [if_neg (not_lpre_of_window (by decide) (v ++ (expectedSplit ++ w))),
    if_neg (not_lpre_of_window (by decide) (v ++ (expectedSplit ++ w))),
    if_pos hstart, hsplit]
  simp [idx1, pyStrip_cons_space]

/-- A violated-constraint line whose text holds a second
`Violated constraint:` occurrence: the captured value stops there. -/
theorem processLine_constraint_second (iss : Issue) (v w : Str)
    (hfirst : ∀ i < (' ' :: v).length,
      lpre constraintSplit (((' ' :: v) ++ (constraintSplit ++ w)).drop i) = false) :
    processLine iss ("- Violated constraint: ".toList ++ (v ++ (constraintSplit ++ w))) =
      { iss with constraint := some (pyStrip v) } := by
  have hm : constraintSplit = 'V' :: "iolated constraint:".toList := by decide
  have eline : "- Violated constraint: ".toList ++ (v ++ (constraintSplit ++ w)) =
      '-' :: ' ' :: (constraintSplit ++ ((' ' :: v) ++ (constraintSplit ++ w))) := by
    rw [show "- Violated constraint: ".toList =
      '-' :: ' ' :: (constraintSplit ++ [' ']) from by decide]
    simp
  have hstart : lpre constraintStart
      ("- Violated constraint: ".toList ++ (v ++ (constraintSplit ++ w))) = true := by
    rw [show "- Violated constraint: ".toList = constraintStart ++ [' '] from by decide,
      List.append_assoc]
    exact lpre_self_append _ _
  have hsplit : splitOnSub constraintSplit
      ("- Violated constraint: ".toList ++ (v ++ (constraintSplit ++ w))) =
      ['-', ' '] :: (' ' :: v) :: splitOnSub constraintSplit w := by
    rw [eline]
    exact splitOnSub_marker_twice hm (by decide) (by decide) (' ' :: v) w hfirst
  unfold processLine
  rw [if_neg (not_lpre_of_window (by decide) (v ++ (constraintSplit ++ w))),
    if_neg (not_lpre_of_window (by decide) (v ++ (constraintSplit ++ w))),
    if_neg (not_lpre_of_window (by decide) (v ++ (constraintSplit ++ w))),
    if_pos hstart, hsplit]
  simp [idx1, pyStrip_cons_space]

/-- A location line whose text holds a second `Location:` occurrence:
the captured value stops there. -/
theorem processLine_location_second (iss : Issue) (v w : Str)
    (hfirst : ∀ i < (' ' :: v).length,
      lpre locationSplit (((' ' :: v) ++ (locationSplit ++ w)).drop i) = false) :
    processLine iss ("- Location: ".toList ++ (v ++ (locationSplit ++ w))) =
      { iss with location := some (pyStrip v) } := by
  have hm : locationSplit = 'L' :: "ocation:".toList := by decide
  have eline : "- Location: ".toList ++ (v ++ (locationSplit ++ w)) =
      '-' :: ' ' :: (locationSplit ++ ((' ' :: v) ++ (locationSplit ++ w))) := by
    rw [show "- Location: ".toList = '-' :: ' ' :: (locationSplit ++ [' ']) from by decide]
    simp
  have hstart : lpre locationStart
      ("- Location: ".toList ++ (v ++ (locationSplit ++ w))) = true := by
    rw [show "- Location: ".toList = locationStart ++ [' '] from by decide, List.append_assoc]
    exact lpre_self_append _ _
  have hsplit : splitOnSub locationSplit
      ("- Location: ".toList ++ (v ++ (locationSplit ++ w))) =
      ['-', ' '] :: (' ' :: v) :: splitOnSub locationSplit w := by
    rw [eline]
    exact splitOnSub_marker_twice hm (by decide) (by decide) (' ' :: v) w hfirst
  unfold processLine
  rw [if_neg (not_lpre_of_window (by decide) (v ++ (locationSplit ++ w))),
    if_neg (not_lpre_of_window (by decide) (v ++ (locationSplit ++ w))),
    if_neg (not_lpre_of_window (by decide) (v ++ (locationSplit ++ w))),
    if_neg (not_lpre_of_window (by decide) (v ++ (locationSplit ++ w))),
    if_pos hstart, hsplit]
  simp [idx1, pyStrip_cons_space]

/-- C6 amended: for every recognized field line — each of the five
fields, in its recognized marker style — the captured value is the
text after the marker up to the next occurrence of the marker string
on the line, or up to the end of the line when there is none, trimmed. -/
theorem claimC6_amended (iss : Issue) (v w : Str)
    (ht1 : ∀ i < (' ' :: v).length,
      lpre titleSplit (((' ' :: v) ++ (titleSplit ++ w)).drop i) = false)
    (ht2 : containsSub titleSplit v = false)
    (hd1 : ∀ i < (' ' :: v).length,
      lpre detailsSplit (((' ' :: v) ++ (detailsSplit ++ w)).drop i) = false)
    (hd2 : containsSub detailsSplit v = false)
    (he1 : ∀ i < (' ' :: v).length,
      lpre expectedSplit (((' ' :: v) ++ (expectedSplit ++ w)).drop i) = false)
    (he2 : containsSub expectedSplit v = false)
    (hc1 : ∀ i < (' ' :: v).length,
      lpre constraintSplit (((' ' :: v) ++ (constraintSplit ++ w)).drop i) = false)
    (hc2 : containsSub constraintSplit v = false)
    (hl1 : ∀ i < (' ' :: v).length,
      lpre locationSplit (((' ' :: v) ++ (locationSplit ++ w)).drop i) = false)
    (hl2 : containsSub locationSplit v = false) :
    processLine iss ("- **Issue:** ".toList ++ (v ++ (titleSplit ++ w))) =
      { iss with title := some (pyStrip v) } ∧
    processLine iss ("- **Issue:** ".toList ++ v) =
      { iss with title := some (pyStrip v) } ∧
    processLine iss ("- Details: ".toList ++ (v ++ (detailsSplit ++ w))) =
      { iss with details := some (pyStrip v) } ∧
    processLine iss ("- Details: ".toList ++ v) =
      { iss with details := some (pyStrip v) } ∧
    processLine iss ("- Expected correct state: ".toList ++ (v ++ (expectedSplit ++ w))) =
      { iss with expected := some (pyStrip v) } ∧
    processLine iss ("- Expected correct state: ".toList ++ v) =
      { iss with expected := some (pyStrip v) } ∧
    processLine iss ("- Violated constraint: ".toList ++ (v ++ (constraintSplit ++ w))) =
      { iss with constraint := some (pyStrip v) } ∧
    processLine iss ("- Violated constraint: ".toList ++ v) =
      { iss with constraint := some (pyStrip v) } ∧
    processLine iss ("- Location: ".toList ++ (v ++ (locationSplit ++ w))) =
      { iss with location := some (pyStrip v) } ∧
    processLine iss ("- Location: ".toList ++ v) =
      { iss with location := some (pyStrip v) } :=
  ⟨processLine_title_second iss v w ht1, processLine_title_emph iss v ht2,
   processLine_details_second iss v w hd1, processLine_details_plain iss v hd2,
   processLine_expected_second iss v w he1, processLine_expected_plain iss v he2,
   processLine_constraint_second iss v w hc1, processLine_constraint_plain iss v hc2,
   processLine_location_second iss v w hl1, processLine_location_plain iss v hl2⟩

/-- C6 witness: the truncated and end-of-line captures at concrete
lines, for the title and details markers. -/
theorem claimC6_witness :
    processLine (initIssue "f".toList)
        ("- **Issue:** ".toList ++ ("T one".toList ++ (titleSplit ++ " y".toList))) =
      { initIssue "f".toList with title := some (pyStrip "T one".toList) } ∧
    processLine (initIssue "f".toList)
        ("- Details: ".toList ++ ("3 dup".toList ++ (detailsSplit ++ " x".toList))) =
      { initIssue "f".toList with details := some (pyStrip "3 dup".toList) } ∧
    processLine (initIssue "f".toList) ("- Details: ".toList ++ "3 dup".toList) =
      { initIssue "f".toList with details := some (pyStrip "3 dup".toList) } ∧
    processLine (initIssue "f".toList) ("- Location: ".toList ++ "row 7".toList) =
      { initIssue "f".toList with location := some (pyStrip "row 7".toList) } := by
  have ht := claimC6_amended (initIssue "f".toList) "T one".toList " y".toList
    (by decide) (by decide) (by decide) (by decide) (by decide)
    (by decide) (by decide) (by decide) (by decide) (by decide)
  have hd := claimC6_amended (initIssue "f".toList) "3 dup".toList " x".toList
    (by decide) (by decide) (by decide) (by decide) (by decide)
    (by decide) (by decide) (by decide) (by decide) (by decide)
  have hl := claimC6_amended (initIssue "f".toList) "row 7".toList " z".toList
    (by decide) (by decide) (by decide) (by decide) (by decide)
    (by decide) (by decide) (by decide) (by decide) (by decide)
  exact ⟨ht.1, hd.2.2.1, hd.2.2.2.1, hl.2.2.2.2.2.2.2.2.2⟩
